import Mathlib

/-!
Shallow embedding of `src/barrier-server.js`, a node.js barrier
synchronization server, together with proofs about its check-in /
release state machine.

Modelling conventions:
* A waiter handle (the held HTTP response object `res`) is modelled as a
  `Nat` identifier; calling `res.end(payload)` on it is recorded as a
  `(handle, payload)` pair in a list of release calls.
* A group's `checkins` JS object (participant id → held response) is an
  insertion-ordered association list `List (String × Nat)`;
  `Object.keys` enumerates keys in insertion order, which the
  association-list order mirrors, and JS object keys are unique.
* The request body parsing (`querystring.parse`) is an external node
  library; the handler is modelled as receiving the already-extracted
  `id` string.
* node's single-threaded event loop runs each request's `end` handler to
  completion before the next; concurrency is therefore modelled as an
  arbitrary interleaving order of atomic handler executions.
-/

namespace Barrier

/-- Result of handling one check-in request.  `err c m` models
`throw new HttpError(c, m)` being caught and sent as status `c` with
optional body `m`; `held` models returning with the response kept open;
`released calls` models the completed round, where `calls` lists every
`res.end(payload)` invocation made, in order. -/
inductive Outcome where
  | err (statusCode : Nat) (message : Option String)
  | held
  | released (calls : List (Nat × String))
deriving Repr, DecidableEq

/-- The fixed success payload sent on release: `'GO\r\n'` (line 127). -/
def releasePayload : String := "GO\r\n"

/-- Error body for an id not in the expected list (line 97). -/
def unrecognizedMsg (id : String) : String :=
  "Unrecognized id: \"" ++ id ++ "\"\r\n"

/-- Error body for an id already checked in this round (line 103). -/
def duplicateMsg (id : String) : String :=
  "Duplicate id: \"" ++ id ++ "\"\r\n"

/-- One group's `checkins` object: participant id → held handle. -/
abbrev Checkins := List (String × Nat)

/-- The keys of a `checkins` object (`Object.keys(checkins)`). -/
def keysOf (l : Checkins) : List String := l.map Prod.fst

/-- The per-group check-in logic of the request handler
(`src/barrier-server.js` lines 94–128), for a group whose configured
expected-id list is `expectedIds`:

* `if (expectedIds.indexOf(id) === -1) throw new HttpError(400, 'Unrecognized id: ...')`
* `if (checkins[id] !== undefined) throw new HttpError(400, 'Duplicate id: ...')`
* `checkins[id] = res`
* `allCheckedIn = !expectedIds.some(function(id) { return checkins[id] === undefined; })`
* if all checked in: `Object.keys(checkins).forEach(function(id) { checkins[id].end('GO\r\n'); })`
  then `checkins = checkinStore[req.url] = \x7b\x7d`.

Returns the outcome together with the group's `checkins` state after the
handler finishes. -/
def checkinGroup (expectedIds : List String) (id : String) (res : Nat)
    (checkins : Checkins) : Outcome × Checkins :=
  if expectedIds.contains id = false then
    (.err 400 (some (unrecognizedMsg id)), checkins)
  else if (checkins.lookup id).isSome then
    (.err 400 (some (duplicateMsg id)), checkins)
  else
    let checkins2 := checkins ++ [(id, res)]
    if expectedIds.all (fun e => (checkins2.lookup e).isSome) then
      (.released (checkins2.map (fun p => (p.2, releasePayload))), [])
    else
      (.held, checkins2)

/-- The whole-server `checkinStore` (line 83): url → group `checkins`. -/
abbrev Store := List (String × Checkins)

/-- JS object property assignment `obj[key] = v`: an existing key keeps
its position, a fresh key is appended. -/
def setKey {β : Type} : List (String × β) → String → β → List (String × β)
  | [], url, v => [(url, v)]
  | (u, c) :: t, url, v =>
    if u = url then (u, v) :: t else (u, c) :: setKey t url v

/-- An inbound HTTP request as seen by the handler, after the external
`querystring` parse: method, url, the `id` form field, and the fresh
response handle node created for this request. -/
structure Request where
  method : String
  url : String
  id : String
  res : Nat

/-- The full request handler (`src/barrier-server.js` lines 88–135):

* `if (req.method !== 'POST') throw new HttpError(405)`
* `var expectedIds = config.expected[req.url]; if (expectedIds === undefined) throw new HttpError(404)`
* then the per-group check-in logic of `checkinGroup` on
  `checkinStore[req.url]` (lazily created, `checkinStore[req.url] || \x7b\x7d`).

`expectedCfg` is `config.expected`.  On an error outcome the store is
unchanged (the `throw` paths run before any store mutation; on the
duplicate path the group entry already exists and the lazy
initialization re-assigns the same object). -/
def handleRequest (expectedCfg : List (String × List String)) (req : Request)
    (store : Store) : Outcome × Store :=
  if req.method ≠ "POST" then
    (.err 405 none, store)
  else
    match expectedCfg.lookup req.url with
    | none => (.err 404 none, store)
    | some expectedIds =>
      let checkins := (store.lookup req.url).getD []
      let r := checkinGroup expectedIds req.id req.res checkins
      match r.1 with
      | .err c m => (.err c m, store)
      | o => (o, setKey store req.url r.2)

/-- The source registers no connection-close listener (there is no
`req.on('close')` / `res.on('close')` anywhere in
`src/barrier-server.js`), so a held connection terminating early runs no
server code at all: the group's `checkins` state is unchanged.
`deadRes` is the handle whose underlying connection died. -/
def onConnectionClosed (deadRes : Nat) (checkins : Checkins) : Checkins :=
  checkins

/-- The release loop of lines 125–127 under JS exception semantics, with
a fallible `end`: `endOk h = false` means `checkins[id].end('GO\r\n')`
throws on handle `h`.  `Object.keys(checkins).forEach(...)` calls `end`
on each stored handle in order; a thrown exception propagates out of
`forEach` immediately, so the remaining handles are not visited.
Returns the handles on which `end` was invoked (including the throwing
one) and whether the loop ran to completion. -/
def releaseLoop (endOk : Nat → Bool) : Checkins → List Nat × Bool
  | [] => ([], true)
  | (_, h) :: rest =>
    if endOk h then
      let r := releaseLoop endOk rest
      (h :: r.1, r.2)
    else
      ([h], false)

/-- Lines 125–128 as a whole: the release loop followed by
`checkins = checkinStore[req.url] = \x7b\x7d`.  The reset line runs only
if the loop did not throw; a thrown exception skips it (and, not being
an `HttpError`, is re-thrown by the catch block at line 131). -/
def releaseAndClear (endOk : Nat → Bool) (checkins : Checkins) :
    List Nat × Checkins :=
  let r := releaseLoop endOk checkins
  (r.1, if r.2 then [] else checkins)

/-- The configuration object, restricted to its numeric keys (lines
66–71).  Defaults: `keepAliveIntervalMs: 60 * 1000`, `port: 1337`. -/
def defaultConfig : List (String × Nat) :=
  [("keepAliveIntervalMs", 60 * 1000), ("port", 1337)]

/-- Config loading (lines 73–74): each key of the user's config file
overwrites the default (`config[k] = userConfig[k]`). -/
def mergeConfig (base user : List (String × Nat)) : List (String × Nat) :=
  user.foldl (fun acc p => setKey acc p.1 p.2) base

/-- The delay argument the source passes to the keep-alive
`setInterval` (line 151): it reads `config.keepaliveIntervalMs`
(lower-case `a` in `alive`), returning `none` when that exact key is
absent (JS `undefined`). -/
def tickerIntervalArg (cfg : List (String × Nat)) : Option Nat :=
  cfg.lookup "keepaliveIntervalMs"

/-- Group states reachable from server start for a group with expected
list `expectedIds`: the group's `checkins` starts absent (read as the
empty object) and is only ever changed by the check-in handler. -/
inductive Reachable (expectedIds : List String) : Checkins → Prop
  | init : Reachable expectedIds []
  | step (cs : Checkins) (id : String) (res : Nat) :
      Reachable expectedIds cs →
      Reachable expectedIds (checkinGroup expectedIds id res cs).2

/-- Whether an outcome is an error (an `HttpError` response). -/
def Outcome.isErr : Outcome → Bool
  | .err _ _ => true
  | _ => false

/-- The release calls an outcome performed (empty unless a round
completed). -/
def Outcome.relCalls : Outcome → List (Nat × String)
  | .released calls => calls
  | _ => []

/-- Sequentially process check-ins `(id, res)` for one group, in order
(node's event loop runs each handler to completion). -/
def runCheckins (expectedIds : List String) (reqs : List (String × Nat))
    (checkins : Checkins) : Checkins :=
  reqs.foldl (fun cs p => (checkinGroup expectedIds p.1 p.2 cs).2) checkins

/-! ### Helper lemmas about association-list lookup -/

theorem lookup_isSome_iff (k : String) (l : Checkins) :
    (l.lookup k).isSome = true ↔ k ∈ keysOf l := by
  induction l with
  | nil => simp [List.lookup, keysOf]
  | cons p t ih =>
    obtain ⟨a, b⟩ := p
    by_cases h : k = a
    · subst h; simp [List.lookup, keysOf]
    · have hb : (k == a) = false := by simp [h]
      simp only [List.lookup, hb, keysOf, List.map_cons, List.mem_cons]
      rw [ih]
      simp [keysOf, h]

theorem lookup_eq_none_iff (k : String) (l : Checkins) :
    l.lookup k = none ↔ k ∉ keysOf l := by
  rw [← lookup_isSome_iff]
  cases l.lookup k <;> simp

theorem lookup_append_chk (k : String) (l₁ l₂ : Checkins) :
    (l₁ ++ l₂).lookup k =
      (match l₁.lookup k with
       | some v => some v
       | none => l₂.lookup k) := by
  induction l₁ with
  | nil => simp [List.lookup]
  | cons p t ih =>
    obtain ⟨a, b⟩ := p
    by_cases h : k = a
    · subst h; simp [List.lookup]
    · simp only [List.cons_append, List.lookup]
      have : (k == a) = false := by simp [h]
      rw [this]
      exact ih

theorem keysOf_append (l : Checkins) (id : String) (res : Nat) :
    keysOf (l ++ [(id, res)]) = keysOf l ++ [id] := by
  simp [keysOf]

/-! ### Branch characterizations of `checkinGroup` -/

theorem checkinGroup_unrecognized (expectedIds : List String) (id : String)
    (res : Nat) (checkins : Checkins) (h : id ∉ expectedIds) :
    checkinGroup expectedIds id res checkins =
      (.err 400 (some (unrecognizedMsg id)), checkins) := by
  simp [checkinGroup, h]

theorem checkinGroup_duplicate (expectedIds : List String) (id : String)
    (res : Nat) (checkins : Checkins) (hmem : id ∈ expectedIds)
    (hdup : (checkins.lookup id).isSome) :
    checkinGroup expectedIds id res checkins =
      (.err 400 (some (duplicateMsg id)), checkins) := by
  simp [checkinGroup, hmem, hdup]

theorem checkinGroup_complete (expectedIds : List String) (id : String)
    (res : Nat) (checkins : Checkins) (hmem : id ∈ expectedIds)
    (hfresh : checkins.lookup id = none)
    (hall : ∀ e ∈ expectedIds, e = id ∨ e ∈ keysOf checkins) :
    checkinGroup expectedIds id res checkins =
      (.released ((checkins ++ [(id, res)]).map
          (fun p => (p.2, releasePayload))), []) := by
  have hcomplete :
      expectedIds.all
        (fun e => ((checkins ++ [(id, res)]).lookup e).isSome) = true := by
    rw [List.all_eq_true]
    intro e he
    rw [lookup_append_chk]
    rcases hall e he with h | h
    · subst h
      rw [hfresh]
      simp [List.lookup]
    · have := (lookup_isSome_iff e checkins).2 h
      cases hc : checkins.lookup e with
      | none => rw [hc] at this; simp at this
      | some v => simp
  simp [checkinGroup, hmem, hfresh, hcomplete]

theorem checkinGroup_incomplete (expectedIds : List String) (id : String)
    (res : Nat) (checkins : Checkins) (hmem : id ∈ expectedIds)
    (hfresh : checkins.lookup id = none)
    (e₀ : String) (he₀ : e₀ ∈ expectedIds) (hne : e₀ ≠ id)
    (hnotin : e₀ ∉ keysOf checkins) :
    checkinGroup expectedIds id res checkins =
      (.held, checkins ++ [(id, res)]) := by
  have hmiss : ((checkins ++ [(id, res)]).lookup e₀).isSome = false := by
    rw [lookup_append_chk, (lookup_eq_none_iff e₀ checkins).2 hnotin]
    have hb : (e₀ == id) = false := by simp [hne]
    simp [List.lookup, hb]
  have hincomplete :
      expectedIds.all
        (fun e => ((checkins ++ [(id, res)]).lookup e).isSome) = false := by
    rw [List.all_eq_false]
    exact ⟨e₀, he₀, by simp [hmiss]⟩
  simp [checkinGroup, hmem, hfresh, hincomplete]

theorem checkinGroup_fresh (expectedIds : List String) (id : String)
    (res : Nat) (checkins : Checkins) (hmem : id ∈ expectedIds)
    (hfresh : checkins.lookup id = none) :
    checkinGroup expectedIds id res checkins =
      (if expectedIds.all
          (fun e => ((checkins ++ [(id, res)]).lookup e).isSome) then
        (.released ((checkins ++ [(id, res)]).map
            (fun p => (p.2, releasePayload))), [])
      else
        (.held, checkins ++ [(id, res)])) := by
  simp [checkinGroup, hmem, hfresh]

/-! ### Claim theorems -/

/-- C5: a check-in whose participant id is not in the group's expected
list yields the `Unrecognized id` 400 error and leaves the group's
`checkins` map exactly unchanged. -/
theorem unrecognized_checkin_rejected (expectedIds : List String)
    (id : String) (res : Nat) (checkins : Checkins)
    (h : id ∉ expectedIds) :
    (checkinGroup expectedIds id res checkins).1 =
      .err 400 (some (unrecognizedMsg id)) ∧
    (checkinGroup expectedIds id res checkins).2 = checkins := by
  rw [checkinGroup_unrecognized expectedIds id res checkins h]
  exact ⟨rfl, rfl⟩

/-- Witness for C5: group expecting h1, h2; check-in by h3 is rejected
with the `Unrecognized id` error and leaves the held entry for h1
untouched. -/
theorem unrecognized_checkin_rejected_witness :
    (checkinGroup ["h1", "h2"] "h3" 9 [("h1", 5)]).1 =
      .err 400 (some (unrecognizedMsg "h3")) ∧
    (checkinGroup ["h1", "h2"] "h3" 9 [("h1", 5)]).2 = [("h1", 5)] :=
  unrecognized_checkin_rejected ["h1", "h2"] "h3" 9 [("h1", 5)] (by decide)

/-- C6: a second check-in with an id already held this round yields the
`Duplicate id` 400 error, leaves the map unchanged with the original
handle still stored, and exactly one entry is held for that id. -/
theorem duplicate_checkin_rejected (expectedIds : List String)
    (id : String) (res h₀ : Nat) (checkins : Checkins)
    (hmem : id ∈ expectedIds)
    (hheld : checkins.lookup id = some h₀)
    (hnd : (keysOf checkins).Nodup) :
    (checkinGroup expectedIds id res checkins).1 =
      .err 400 (some (duplicateMsg id)) ∧
    (checkinGroup expectedIds id res checkins).2 = checkins ∧
    (checkinGroup expectedIds id res checkins).2.lookup id = some h₀ ∧
    (keysOf (checkinGroup expectedIds id res checkins).2).count id = 1 := by
  have hdup : (checkins.lookup id).isSome := by rw [hheld]; rfl
  rw [checkinGroup_duplicate expectedIds id res checkins hmem hdup]
  refine ⟨rfl, rfl, hheld, ?_⟩
  exact List.count_eq_one_of_mem hnd ((lookup_isSome_iff id checkins).1 hdup)

/-- Witness for C6: h1 checks in twice before h2; the second call gets
the duplicate error and h1's original handle 5 is still the only entry. -/
theorem duplicate_checkin_rejected_witness :
    (checkinGroup ["h1", "h2"] "h1" 9 [("h1", 5)]).1 =
      .err 400 (some (duplicateMsg "h1")) ∧
    (checkinGroup ["h1", "h2"] "h1" 9 [("h1", 5)]).2 = [("h1", 5)] ∧
    (checkinGroup ["h1", "h2"] "h1" 9 [("h1", 5)]).2.lookup "h1" = some 5 ∧
    (keysOf (checkinGroup ["h1", "h2"] "h1" 9 [("h1", 5)]).2).count "h1" = 1 :=
  duplicate_checkin_rejected ["h1", "h2"] "h1" 9 5 [("h1", 5)]
    (by decide) (by decide) (by decide)

/-- C10: a request whose method is not POST is answered with status 405
and the server state is untouched — in particular the result does not
depend on the group configuration, the url, the id or the store, showing
the rejection happens before group resolution or any other processing. -/
theorem non_post_rejected (expectedCfg : List (String × List String))
    (req : Request) (store : Store) (h : req.method ≠ "POST") :
    handleRequest expectedCfg req store = (.err 405 none, store) := by
  simp [handleRequest, h]

/-- Witness for C10: a GET request is answered 405 with the store
unchanged. -/
theorem non_post_rejected_witness :
    handleRequest [("/", ["h1"])] ⟨"GET", "/", "h1", 3⟩ [("/", [("h1", 5)])] =
      (.err 405 none, [("/", [("h1", 5)])]) :=
  non_post_rejected [("/", ["h1"])] ⟨"GET", "/", "h1", 3⟩ [("/", [("h1", 5)])]
    (by decide)

/-- C3 (failing evaluation): with two held handles where `end` throws on
the first (handle 1), the release loop never reaches handle 2 and the
group's map is not cleared — a single handle's failed release aborts the
whole batch, contradicting the required per-handle isolation. -/
theorem release_failure_aborts_batch :
    releaseAndClear (fun h => h != 1) [("h1", 1), ("h2", 2)] =
      ([1], [("h1", 1), ("h2", 2)]) ∧
    2 ∉ (releaseAndClear (fun h => h != 1) [("h1", 1), ("h2", 2)]).1 ∧
    (releaseAndClear (fun h => h != 1) [("h1", 1), ("h2", 2)]).2 ≠ [] := by
  decide

/-- C4 (failing evaluation): the defaults define `keepAliveIntervalMs`
and a user config overriding it is merged in, yet the value handed to
`setInterval` is read from the differently-cased key
`keepaliveIntervalMs`, which is never set: the ticker receives
`undefined` (`none`), so neither the configured value nor the 60000 ms
default is ever used. -/
theorem keepalive_interval_misread :
    tickerIntervalArg
        (mergeConfig defaultConfig [("keepAliveIntervalMs", 5000)]) = none ∧
    (mergeConfig defaultConfig
        [("keepAliveIntervalMs", 5000)]).lookup "keepAliveIntervalMs" =
      some 5000 ∧
    tickerIntervalArg defaultConfig = none ∧
    defaultConfig.lookup "keepAliveIntervalMs" = some 60000 := by
  decide

/-- C8 (counterexample): "h1" checks in and is held under handle 7; its
connection then dies.  No close handler exists in the source, so the
entry is not removed: `arrived` still maps "h1" to the dead handle,
refuting the claim that connection death destroys the entry. -/
theorem connection_death_keeps_entry :
    (checkinGroup ["h1", "h2"] "h1" 7 []).2 = [("h1", 7)] ∧
    onConnectionClosed 7 [("h1", 7)] = [("h1", 7)] ∧
    (onConnectionClosed 7 [("h1", 7)]).lookup "h1" = some 7 := by
  decide

/-- C8 (amended): an entry leaves a group's `checkins` map only through
the release-and-clear of a completed round — every check-in either
leaves the map unchanged, appends one entry, or (exactly when the round
completed and released) resets it to empty — and a connection dying
early removes nothing. -/
theorem entry_removed_only_by_round_clear (expectedIds : List String)
    (id : String) (res : Nat) (checkins : Checkins) (deadRes : Nat) :
    ((checkinGroup expectedIds id res checkins).2 = checkins ∨
     (checkinGroup expectedIds id res checkins).2 = checkins ++ [(id, res)] ∨
     ((checkinGroup expectedIds id res checkins).2 = [] ∧
      ∃ calls, (checkinGroup expectedIds id res checkins).1 =
        .released calls)) ∧
    onConnectionClosed deadRes checkins = checkins := by
  refine ⟨?_, rfl⟩
  by_cases h1 : id ∈ expectedIds
  · by_cases h2 : checkins.lookup id = none
    · rw [checkinGroup_fresh expectedIds id res checkins h1 h2]
      by_cases h3 : expectedIds.all
          (fun e => ((checkins ++ [(id, res)]).lookup e).isSome) = true
      · rw [if_pos h3]
        exact Or.inr (Or.inr ⟨rfl, _, rfl⟩)
      · rw [if_neg h3]
        exact Or.inr (Or.inl rfl)
    · have hdup : (checkins.lookup id).isSome := by
        cases hc : checkins.lookup id with
        | none => exact absurd hc h2
        | some v => rfl
      rw [checkinGroup_duplicate expectedIds id res checkins h1 hdup]
      exact Or.inl rfl
  · rw [checkinGroup_unrecognized expectedIds id res checkins h1]
    exact Or.inl rfl

/-- C1: when the last not-yet-arrived expected id checks in (every
expected id is either this one or already arrived), the round completes:
the outcome releases, every payload is the fixed success marker
`'GO\r\n'`, each handle stored in the map (the new arrival included)
receives exactly one release call, and the map is empty immediately
afterwards. -/
theorem last_checkin_releases_all (expectedIds : List String)
    (id : String) (res : Nat) (checkins : Checkins)
    (hmem : id ∈ expectedIds)
    (hfresh : checkins.lookup id = none)
    (hlast : ∀ e ∈ expectedIds, e = id ∨ e ∈ keysOf checkins)
    (hhnd : ((checkins ++ [(id, res)]).map Prod.snd).Nodup) :
    (checkinGroup expectedIds id res checkins).1 =
      .released ((checkins ++ [(id, res)]).map
        (fun p => (p.2, releasePayload))) ∧
    (checkinGroup expectedIds id res checkins).2 = [] ∧
    (∀ c ∈ (checkinGroup expectedIds id res checkins).1.relCalls,
      c.2 = releasePayload) ∧
    (∀ hd ∈ (checkins ++ [(id, res)]).map Prod.snd,
      (((checkinGroup expectedIds id res checkins).1.relCalls).map
        Prod.fst).count hd = 1) := by
  rw [checkinGroup_complete expectedIds id res checkins hmem hfresh hlast]
  refine ⟨rfl, rfl, ?_, ?_⟩
  · intro c hc
    simp only [Outcome.relCalls, List.mem_map] at hc
    obtain ⟨p, _, hp⟩ := hc
    rw [← hp]
  · intro hd hhd
    have hfst : (((checkins ++ [(id, res)]).map
        (fun p => (p.2, releasePayload))).map Prod.fst) =
        (checkins ++ [(id, res)]).map Prod.snd := by
      simp [List.map_map, Function.comp]
    simp only [Outcome.relCalls, hfst]
    exact List.count_eq_one_of_mem hhnd hhd

/-- Witness for C1: group expecting h1 and h2; h1 is already held under
handle 5, h2 checks in with handle 6: both handles receive exactly one
`GO` release and the map is cleared. -/
theorem last_checkin_releases_all_witness :
    (checkinGroup ["h1", "h2"] "h2" 6 [("h1", 5)]).1 =
      .released [(5, releasePayload), (6, releasePayload)] ∧
    (checkinGroup ["h1", "h2"] "h2" 6 [("h1", 5)]).2 = [] ∧
    (∀ c ∈ (checkinGroup ["h1", "h2"] "h2" 6 [("h1", 5)]).1.relCalls,
      c.2 = releasePayload) ∧
    (∀ hd ∈ ([("h1", 5)] ++ [("h2", 6)] : Checkins).map Prod.snd,
      (((checkinGroup ["h1", "h2"] "h2" 6 [("h1", 5)]).1.relCalls).map
        Prod.fst).count hd = 1) :=
  last_checkin_releases_all ["h1", "h2"] "h2" 6 [("h1", 5)]
    (by decide) (by decide) (by decide) (by decide)

/-- Every check-in preserves the invariant that the map's keys are
distinct members of the expected list (helper for the reachability
induction). -/
theorem inv_step (expectedIds : List String) (id : String) (res : Nat)
    (checkins : Checkins)
    (hsub : keysOf checkins ⊆ expectedIds)
    (hnd : (keysOf checkins).Nodup) :
    keysOf (checkinGroup expectedIds id res checkins).2 ⊆ expectedIds ∧
    (keysOf (checkinGroup expectedIds id res checkins).2).Nodup := by
  by_cases h1 : id ∈ expectedIds
  · by_cases h2 : checkins.lookup id = none
    · rw [checkinGroup_fresh expectedIds id res checkins h1 h2]
      by_cases h3 : expectedIds.all
          (fun e => ((checkins ++ [(id, res)]).lookup e).isSome) = true
      · rw [if_pos h3]
        simp [keysOf]
      · rw [if_neg h3]
        have hid : id ∉ keysOf checkins := (lookup_eq_none_iff id checkins).1 h2
        constructor
        · rw [keysOf_append]
          intro x hx
          rcases List.mem_append.1 hx with hx | hx
          · exact hsub hx
          · rw [List.mem_singleton.1 hx]; exact h1
        · rw [keysOf_append, List.nodup_append]
          exact ⟨hnd, List.nodup_singleton id,
            fun x hx hx1 => hid ((List.mem_singleton.1 hx1) ▸ hx)⟩
    · have hdup : (checkins.lookup id).isSome := by
        cases hc : checkins.lookup id with
        | none => exact absurd hc h2
        | some v => rfl
      rw [checkinGroup_duplicate expectedIds id res checkins h1 hdup]
      exact ⟨hsub, hnd⟩
  · rw [checkinGroup_unrecognized expectedIds id res checkins h1]
    exact ⟨hsub, hnd⟩

/-- C2: in every reachable state of a group, the keys of `arrived` are a
subset of the expected list, `|arrived| ≤ |expected|`, and any further
check-in — succeeding or failing — preserves the subset invariant. -/
theorem reachable_arrived_subset_expected (expectedIds : List String)
    (cs : Checkins) (hreach : Reachable expectedIds cs) :
    (keysOf cs ⊆ expectedIds ∧ cs.length ≤ expectedIds.length) ∧
    (∀ id res,
      keysOf (checkinGroup expectedIds id res cs).2 ⊆ expectedIds) := by
  have hinv : keysOf cs ⊆ expectedIds ∧ (keysOf cs).Nodup := by
    induction hreach with
    | init => exact ⟨by simp [keysOf], by simp [keysOf]⟩
    | step cs' id res _ ih => exact inv_step expectedIds id res cs' ih.1 ih.2
  refine ⟨⟨hinv.1, ?_⟩, fun id res => (inv_step expectedIds id res cs
    hinv.1 hinv.2).1⟩
  have hlen : cs.length = (keysOf cs).length := (List.length_map _ _).symm
  rw [hlen]
  exact (List.subperm_of_subset hinv.2 hinv.1).length_le

/-- Witness for C2: the state holding only h1 (reached by one check-in
from the empty initial state) has its key set inside the expected list
and no more entries than expected ids. -/
theorem reachable_arrived_subset_expected_witness :
    (keysOf [("h1", 5)] ⊆ ["h1", "h2"] ∧
      ([("h1", 5)] : Checkins).length ≤ (["h1", "h2"] : List String).length) ∧
    (∀ id res,
      keysOf (checkinGroup ["h1", "h2"] id res [("h1", 5)]).2 ⊆
        ["h1", "h2"]) :=
  reachable_arrived_subset_expected ["h1", "h2"] [("h1", 5)]
    (show Reachable ["h1", "h2"] [("h1", 5)] from
      Reachable.step [] "h1" 5 Reachable.init)

theorem keysOf_selfPairs (l : List String) :
    keysOf (l.map (fun e => (e, 0))) = l := by
  simp only [keysOf, List.map_map]
  exact List.map_id l

/-- Processing the remaining expected ids `suf` in order, starting from
the state where exactly the ids of `pre` have arrived, completes the
round: the final `checkins` map is empty. -/
theorem runRound_completes (suf pre : List String)
    (hnd : (pre ++ suf).Nodup) (hne : suf ≠ []) :
    runCheckins (pre ++ suf) (suf.map (fun e => (e, 0)))
      (pre.map (fun e => (e, 0))) = [] := by
  induction suf generalizing pre with
  | nil => exact absurd rfl hne
  | cons e rest ih =>
    have hnd' := hnd
    rw [List.nodup_append] at hnd'
    obtain ⟨hndpre, hndcons, hdisj⟩ := hnd'
    have hepre : e ∉ pre := fun hmem => hdisj hmem (List.mem_cons_self e rest)
    have hfresh : (pre.map (fun e => (e, 0))).lookup e = none := by
      rw [lookup_eq_none_iff, keysOf_selfPairs]
      exact hepre
    have hemem : e ∈ pre ++ e :: rest := by
      exact List.mem_append_right pre (List.mem_cons_self e rest)
    cases rest with
    | nil =>
      have hall : ∀ x ∈ pre ++ [e],
          x = e ∨ x ∈ keysOf (pre.map (fun e => (e, 0))) := by
        intro x hx
        rw [keysOf_selfPairs]
        rcases List.mem_append.1 hx with hx | hx
        · exact Or.inr hx
        · exact Or.inl (List.mem_singleton.1 hx)
      simp only [List.map_cons, List.map_nil, runCheckins, List.foldl_cons,
        List.foldl_nil]
      rw [checkinGroup_complete (pre ++ [e]) e 0 (pre.map (fun e => (e, 0)))
        hemem hfresh hall]
    | cons e2 rest2 =>
      have he2 : e2 ∈ pre ++ e :: e2 :: rest2 :=
        List.mem_append_right pre
          (List.mem_cons_of_mem e (List.mem_cons_self e2 rest2))
      have hne2 : e2 ≠ e := by
        intro hcontra
        rw [List.nodup_cons] at hndcons
        exact hndcons.1 (hcontra ▸ List.mem_cons_self e2 rest2)
      have hnotin2 : e2 ∉ keysOf (pre.map (fun e => (e, 0))) := by
        rw [keysOf_selfPairs]
        intro hmem
        exact hdisj hmem (List.mem_cons_of_mem e (List.mem_cons_self e2 rest2))
      have hstep := checkinGroup_incomplete (pre ++ e :: e2 :: rest2) e 0
        (pre.map (fun e => (e, 0))) hemem hfresh e2 he2 hne2 hnotin2
      have happ : pre ++ e :: e2 :: rest2 = (pre ++ [e]) ++ e2 :: rest2 := by
        simp
      have hstate : pre.map (fun e => (e, 0)) ++ [(e, 0)] =
          (pre ++ [e]).map (fun e => (e, 0)) := by
        simp
      simp only [List.map_cons, runCheckins, List.foldl_cons]
      rw [hstep, hstate]
      have hihnd : ((pre ++ [e]) ++ e2 :: rest2).Nodup := by
        rw [← happ]; exact hnd
      have := ih (pre ++ [e]) hihnd (by simp)
      rw [happ]
      exact this

/-- In a duplicate-free list of at least two elements, any element has a
distinct companion. -/
theorem exists_other_mem (l : List String) (id : String)
    (hnd : l.Nodup) (hlen : 2 ≤ l.length) (hmem : id ∈ l) :
    ∃ e ∈ l, e ≠ id := by
  cases l with
  | nil => simp at hlen
  | cons a t =>
    cases t with
    | nil => simp at hlen
    | cons b t2 =>
      by_cases hai : a = id
      · subst hai
        rw [List.nodup_cons] at hnd
        refine ⟨b, List.mem_cons_of_mem a (List.mem_cons_self b t2), ?_⟩
        intro hcontra
        exact hnd.1 (hcontra ▸ List.mem_cons_self b t2)
      · exact ⟨a, List.mem_cons_self a (b :: t2), hai⟩

/-- C7: round reuse.  For a group with a duplicate-free, non-empty
expected list: any number of full rounds run from the empty map each end
with the map empty again (no stale entries survive a round), and a fresh
check-in on the empty map by any expected id — in particular one
released in the previous round — is never rejected as a duplicate; when
the group expects at least two participants it is accepted and held. -/
theorem round_reuse (expectedIds : List String)
    (hnd : expectedIds.Nodup) (hne : expectedIds ≠ []) :
    (∀ n, (fun cs => runCheckins expectedIds
      (expectedIds.map (fun e => (e, 0))) cs)^[n] [] = []) ∧
    (∀ id ∈ expectedIds, ∀ res,
      (checkinGroup expectedIds id res []).1 ≠
        .err 400 (some (duplicateMsg id)) ∧
      (2 ≤ expectedIds.length →
        (checkinGroup expectedIds id res []).1 = .held ∧
        (checkinGroup expectedIds id res []).2 = [(id, res)])) := by
  constructor
  · intro n
    induction n with
    | zero => rfl
    | succ k ihk =>
      rw [Function.iterate_succ_apply', ihk]
      have := runRound_completes expectedIds [] (by simpa using hnd) hne
      simpa using this
  · intro id hid res
    have hfresh : (([] : Checkins).lookup id) = none := rfl
    constructor
    · rw [checkinGroup_fresh expectedIds id res [] hid hfresh]
      by_cases hall : expectedIds.all
          (fun e => (([] ++ [(id, res)] : Checkins).lookup e).isSome) = true
      · rw [if_pos hall]; simp
      · rw [if_neg hall]; simp
    · intro hlen
      obtain ⟨e₀, he₀, hne₀⟩ := exists_other_mem expectedIds id hnd hlen hid
      have hnotin : e₀ ∉ keysOf ([] : Checkins) := by simp [keysOf]
      have := checkinGroup_incomplete expectedIds id res [] hid hfresh
        e₀ he₀ hne₀ hnotin
      rw [this]
      exact ⟨rfl, rfl⟩

/-- Witness for C7: the group expecting h1, h2 completes three full
rounds from the empty state ending empty each time, and a fresh check-in
by h1 afterwards is held, not rejected as a duplicate. -/
theorem round_reuse_witness :
    (∀ n, (fun cs => runCheckins ["h1", "h2"]
      ((["h1", "h2"] : List String).map (fun e => (e, 0))) cs)^[n] [] = []) ∧
    (∀ id ∈ ["h1", "h2"], ∀ res,
      (checkinGroup ["h1", "h2"] id res []).1 ≠
        .err 400 (some (duplicateMsg id)) ∧
      (2 ≤ (["h1", "h2"] : List String).length →
        (checkinGroup ["h1", "h2"] id res []).1 = .held ∧
        (checkinGroup ["h1", "h2"] id res []).2 = [(id, res)])) :=
  round_reuse ["h1", "h2"] (by decide) (by decide)

/-- A valid, not-yet-arrived check-in never errors. -/
theorem fresh_not_err (expectedIds : List String) (id : String) (res : Nat)
    (cs : Checkins) (hmem : id ∈ expectedIds)
    (hfresh : cs.lookup id = none) :
    (checkinGroup expectedIds id res cs).1.isErr = false := by
  rw [checkinGroup_fresh expectedIds id res cs hmem hfresh]
  by_cases hall : expectedIds.all
      (fun e => ((cs ++ [(id, res)]).lookup e).isSome) = true
  · rw [if_pos hall]; rfl
  · rw [if_neg hall]; rfl

/-- A valid, not-yet-arrived check-in either completes the round or is
held with its entry appended. -/
theorem fresh_state_cases (expectedIds : List String) (id : String)
    (res : Nat) (cs : Checkins) (hmem : id ∈ expectedIds)
    (hfresh : cs.lookup id = none) :
    checkinGroup expectedIds id res cs =
      (.released ((cs ++ [(id, res)]).map
        (fun p => (p.2, releasePayload))), []) ∨
    checkinGroup expectedIds id res cs = (.held, cs ++ [(id, res)]) := by
  rw [checkinGroup_fresh expectedIds id res cs hmem hfresh]
  by_cases hall : expectedIds.all
      (fun e => ((cs ++ [(id, res)]).lookup e).isSome) = true
  · rw [if_pos hall]; exact Or.inl rfl
  · rw [if_neg hall]; exact Or.inr rfl

/-- C9 (amended): check-ins on one group are processed atomically one
after another (node runs each handler to completion), so under any
interleaving order: two check-ins with different valid, fresh ids both
succeed (the hypotheses are symmetric in the two ids, so the same holds
with the roles swapped); if the second completes the round, its release
batch contains the second arrival's handle and — when the first check-in
was held — the first one's handle as well (no arrival is lost); and a
second check-in with the same id, when the first was held (the round did
not complete in between), yields exactly the `Duplicate id` error. -/
theorem checkin_atomic_interleaving (expectedIds : List String)
    (a b : String) (ra rb ra2 : Nat) (cs : Checkins)
    (hab : a ≠ b) (ha : a ∈ expectedIds) (hb : b ∈ expectedIds)
    (hfa : cs.lookup a = none) (hfb : cs.lookup b = none) :
    ((checkinGroup expectedIds a ra cs).1.isErr = false ∧
     (checkinGroup expectedIds b rb
        (checkinGroup expectedIds a ra cs).2).1.isErr = false) ∧
    (∀ calls, (checkinGroup expectedIds b rb
        (checkinGroup expectedIds a ra cs).2).1 = .released calls →
      (rb, releasePayload) ∈ calls ∧
      ((checkinGroup expectedIds a ra cs).1 = .held →
        (ra, releasePayload) ∈ calls)) ∧
    ((checkinGroup expectedIds a ra cs).1 = .held →
      (checkinGroup expectedIds a ra2
        (checkinGroup expectedIds a ra cs).2).1 =
        .err 400 (some (duplicateMsg a))) := by
  have hba : (b == a) = false := by simp [hab.symm]
  rcases fresh_state_cases expectedIds a ra cs ha hfa with h1 | h1
  · -- the first check-in completed the round; state resets to []
    have hfb2 : (checkinGroup expectedIds a ra cs).2.lookup b = none := by
      rw [h1]; rfl
    refine ⟨⟨?_, ?_⟩, ?_, ?_⟩
    · rw [h1]; rfl
    · exact fresh_not_err expectedIds b rb _ hb hfb2
    · intro calls hrel
      rcases fresh_state_cases expectedIds b rb _ hb hfb2 with h2 | h2
      · rw [h2] at hrel
        have hcalls := Outcome.released.inj hrel
        constructor
        · rw [← hcalls]
          exact List.mem_map_of_mem _
            (List.mem_append_right _ (List.mem_singleton.2 rfl))
        · intro hheld
          rw [h1] at hheld
          exact absurd hheld (by simp)
      · rw [h2] at hrel
        exact absurd hrel (by simp)
    · intro hheld
      rw [h1] at hheld
      exact absurd hheld (by simp)
  · -- the first check-in was held
    have hfb2 : (checkinGroup expectedIds a ra cs).2.lookup b = none := by
      rw [h1]
      show (cs ++ [(a, ra)]).lookup b = none
      rw [lookup_append_chk, hfb]
      simp [List.lookup, hba]
    refine ⟨⟨?_, ?_⟩, ?_, ?_⟩
    · rw [h1]; rfl
    · exact fresh_not_err expectedIds b rb _ hb hfb2
    · intro calls hrel
      rcases fresh_state_cases expectedIds b rb _ hb hfb2 with h2 | h2
      · rw [h2] at hrel
        have hcalls := Outcome.released.inj hrel
        constructor
        · rw [← hcalls]
          exact List.mem_map_of_mem _
            (List.mem_append_right _ (List.mem_singleton.2 rfl))
        · intro _
          rw [← hcalls, h1]
          show (ra, releasePayload) ∈
            ((cs ++ [(a, ra)] ++ [(b, rb)]).map
              (fun p => (p.2, releasePayload)))
          exact List.mem_map_of_mem _
            (List.mem_append_left _
              (List.mem_append_right _ (List.mem_singleton.2 rfl)))
      · rw [h2] at hrel
        exact absurd hrel (by simp)
    · intro _
      have hdupa : ((checkinGroup expectedIds a ra cs).2.lookup a).isSome := by
        rw [h1]
        show ((cs ++ [(a, ra)]).lookup a).isSome
        rw [lookup_append_chk, hfa]
        simp [List.lookup]
      rw [checkinGroup_duplicate expectedIds a ra2 _ ha hdupa]

/-- Witness for C9: group expecting h1 and h2, empty state.  Check-ins
h1 (handle 1) then h2 (handle 2) both succeed, and a repeat check-in of
h1 (handle 3) after h1 was held yields the duplicate error. -/
theorem checkin_atomic_interleaving_witness :
    (checkinGroup ["h1", "h2"] "h1" 1 []).1.isErr = false ∧
    (checkinGroup ["h1", "h2"] "h2" 2
      (checkinGroup ["h1", "h2"] "h1" 1 []).2).1.isErr = false ∧
    (checkinGroup ["h1", "h2"] "h1" 3
      (checkinGroup ["h1", "h2"] "h1" 1 []).2).1 =
      .err 400 (some (duplicateMsg "h1")) := by
  have h := checkin_atomic_interleaving ["h1", "h2"] "h1" "h2" 1 2 3 []
    (by decide) (by decide) (by decide) (by decide) (by decide)
  exact ⟨h.1.1, h.1.2, h.2.2 (by decide)⟩

/-- C9 (counterexample): for a group expecting only "solo", two
back-to-back check-ins with the same id both succeed — the first
completes the round and resets the map, so the second is a fresh arrival
of the next round — contradicting "exactly one success and one
DuplicateArrival" as universally stated. -/
theorem same_id_checkins_both_succeed :
    (checkinGroup ["solo"] "solo" 1 []).1 =
      .released [(1, releasePayload)] ∧
    (checkinGroup ["solo"] "solo" 2
      (checkinGroup ["solo"] "solo" 1 []).2).1 =
      .released [(2, releasePayload)] := by
  decide

end Barrier
